import Mathlib

/-!
Shallow embedding of the flashycardy study-session engine.

The data model follows the drizzle schema in src/db/schema.ts; the durable
queries follow src/db/queries/progress.ts and src/db/queries/cards.ts; the
server actions follow src/actions/study-actions.ts; the client review state
machine follows src/components/study-session-modal.tsx.

Modelling conventions:
- the database is an explicit record of tables (lists of rows); generated
  identity columns are modelled with explicit next-id counters;
- timestamps are natural numbers supplied by the caller as a parameter
  (the source reads the wall clock with new Date());
- JavaScript number arithmetic on the review counters is idealized as exact
  natural-number arithmetic, with Math.floor of a quotient rendered as Nat
  floor division;
- the authenticated user id is a parameter (the source obtains it from the
  identity provider and rejects unauthenticated calls before the logic
  modelled here runs);
- JavaScript Set values are modelled as duplicate-free lists in insertion
  order, which is the iteration order of a JavaScript Set.
-/

namespace Flashy

/-- A deck row: only the columns the study engine reads (decks.id, decks.userId). -/
structure Deck where
  id : Nat
  userId : String
deriving Repr, DecidableEq

/-- A card row: the columns the study engine reads. -/
structure CardRow where
  id : Nat
  deckId : Nat
  front : String
  back : String
deriving Repr, DecidableEq

/-- A study_sessions row, as in src/db/schema.ts (defaults: cardsStudied 0,
correctAnswers 0, completed false, completedAt null). -/
structure StudySession where
  id : Nat
  deckId : Nat
  userId : String
  mode : String
  totalCards : Nat
  cardsStudied : Nat
  correctAnswers : Nat
  completed : Bool
  startedAt : Nat
  completedAt : Option Nat
deriving Repr, DecidableEq

/-- A card_progress row, as in src/db/schema.ts. -/
structure CardProgress where
  id : Nat
  cardId : Nat
  userId : String
  deckId : Nat
  totalReviews : Nat
  correctReviews : Nat
  lastReviewed : Option Nat
  masteryLevel : Nat
deriving Repr, DecidableEq

/-- The durable store: the four tables the study engine touches, plus the
identity counters for the generated primary keys. -/
structure Store where
  decks : List Deck
  cards : List CardRow
  sessions : List StudySession
  progress : List CardProgress
  nextSessionId : Nat
  nextProgressId : Nat
deriving Repr, DecidableEq

/-- The where-clause of getActiveStudySession in src/db/queries/progress.ts:
deckId and userId match and completed is false. -/
def sessionMatchesActive (deckId : Nat) (userId : String) (s : StudySession) : Bool :=
  s.deckId == deckId && s.userId == userId && s.completed == false

/-- The rows getActiveStudySession filters over, before orderBy/limit. -/
def activeFor (store : Store) (deckId : Nat) (userId : String) : List StudySession :=
  store.sessions.filter (sessionMatchesActive deckId userId)

/-- orderBy(desc(startedAt)).limit(1): the row with the largest startedAt
among the matches (ties resolved arbitrarily; the source leaves them to the
database). -/
def pickLatest : List StudySession → Option StudySession
  | [] => none
  | s :: rest =>
    match pickLatest rest with
    | none => some s
    | some t => if t.startedAt > s.startedAt then some t else some s

/-- getActiveStudySession from src/db/queries/progress.ts. -/
def getActiveStudySession (store : Store) (deckId : Nat) (userId : String) :
    Option StudySession :=
  pickLatest (activeFor store deckId userId)

/-- createStudySession from src/db/queries/progress.ts: insert with the
schema defaults and return the inserted row. -/
def createStudySession (store : Store) (deckId : Nat) (userId mode : String)
    (totalCards : Nat) (now : Nat) : StudySession × Store :=
  let s : StudySession :=
    { id := store.nextSessionId, deckId := deckId, userId := userId, mode := mode,
      totalCards := totalCards, cardsStudied := 0, correctAnswers := 0,
      completed := false, startedAt := now, completedAt := none }
  (s, { store with sessions := store.sessions ++ [s],
                   nextSessionId := store.nextSessionId + 1 })

/-- The updates argument of updateStudySession: the TypeScript update type has
exactly these four optional fields (in particular totalCards cannot be
updated). -/
structure SessionUpdates where
  cardsStudied : Option Nat := none
  correctAnswers : Option Nat := none
  completed : Option Bool := none
  completedAt : Option (Option Nat) := none
deriving Repr, DecidableEq

/-- drizzle .set(updates): fields present in the update replace the row's. -/
def applySessionUpdates (u : SessionUpdates) (s : StudySession) : StudySession :=
  { s with
    cardsStudied := u.cardsStudied.getD s.cardsStudied,
    correctAnswers := u.correctAnswers.getD s.correctAnswers,
    completed := u.completed.getD s.completed,
    completedAt := u.completedAt.getD s.completedAt }

/-- The where-clause of updateStudySession: id and userId match. -/
def sessionMatchesOwn (sessionId : Nat) (userId : String) (s : StudySession) : Bool :=
  s.id == sessionId && s.userId == userId

/-- updateStudySession from src/db/queries/progress.ts: update all rows
matching (id, userId), returning the first updated row (the source takes the
head of .returning()). -/
def updateStudySession (store : Store) (sessionId : Nat) (userId : String)
    (u : SessionUpdates) : Option StudySession × Store :=
  ((store.sessions.filter (sessionMatchesOwn sessionId userId)).head?.map
      (applySessionUpdates u),
   { store with sessions := store.sessions.map (fun s =>
        if sessionMatchesOwn sessionId userId s then applySessionUpdates u s else s) })

/-- The select ... limit 1 at the top of updateCardProgress. -/
def findCardProgress (store : Store) (cardId : Nat) (userId : String) :
    Option CardProgress :=
  (store.progress.filter (fun p => p.cardId == cardId && p.userId == userId)).head?

/-- updateCardProgress from src/db/queries/progress.ts.  The source computes
Math.min(100, Math.floor((newCorrectReviews / newTotalReviews) * 100)) on
JavaScript numbers; this is idealized as exact Nat floor division. -/
def updateCardProgress (store : Store) (cardId : Nat) (userId : String)
    (deckId : Nat) (isCorrect : Bool) (now : Nat) : CardProgress × Store :=
  match findCardProgress store cardId userId with
  | some existingProgress =>
    let newTotalReviews := existingProgress.totalReviews + 1
    let newCorrectReviews := existingProgress.correctReviews + (if isCorrect then 1 else 0)
    let newMasteryLevel := min 100 (newCorrectReviews * 100 / newTotalReviews)
    let updated := { existingProgress with
      totalReviews := newTotalReviews, correctReviews := newCorrectReviews,
      lastReviewed := some now, masteryLevel := newMasteryLevel }
    (updated, { store with progress := store.progress.map (fun p =>
        if p.id == existingProgress.id then updated else p) })
  | none =>
    let p : CardProgress :=
      { id := store.nextProgressId, cardId := cardId, userId := userId, deckId := deckId,
        totalReviews := 1, correctReviews := if isCorrect then 1 else 0,
        lastReviewed := some now, masteryLevel := if isCorrect then 100 else 0 }
    (p, { store with progress := store.progress ++ [p],
                     nextProgressId := store.nextProgressId + 1 })

/-- The ownership test of the inner join in getDeckCards
(src/db/queries/cards.ts): some deck row has the requested id and owner. -/
def deckOwned (store : Store) (deckId : Nat) (userId : String) : Bool :=
  store.decks.any (fun d => d.id == deckId && d.userId == userId)

/-- getDeckCards from src/db/queries/cards.ts, already projected to the card
rows (the caller maps the join rows to their cards component).  Deck ids are
primary keys, so the join matches at most one deck row; row order (the source
orders by updatedAt descending) is irrelevant to the properties proved here. -/
def getDeckCards (store : Store) (deckId : Nat) (userId : String) : List CardRow :=
  if deckOwned store deckId userId then
    store.cards.filter (fun c => c.deckId == deckId)
  else []

/-- Result of the startStudySession server action. -/
inductive StartResult where
  | ok (sessionId : Nat) (message : String)
  | err (error : String)
deriving Repr, DecidableEq

/-- Result of the completeStudySession server action. -/
inductive CompleteResult where
  | ok (message : String) (session : StudySession)
  | err (error : String)
deriving Repr, DecidableEq

/-- Result of the reviewCard server action. -/
inductive ReviewResult where
  | ok (message : String)
  | err (error : String)
deriving Repr, DecidableEq

/-- startStudySession from src/actions/study-actions.ts (authenticated path,
after zod validation). -/
def startStudySession (store : Store) (deckId : Nat) (userId mode : String)
    (now : Nat) : StartResult × Store :=
  match getActiveStudySession store deckId userId with
  | some existingSession =>
    (.ok existingSession.id "Resuming existing study session", store)
  | none =>
    let cards := getDeckCards store deckId userId
    if cards.length == 0 then
      (.err "No cards found in this deck", store)
    else
      let created := createStudySession store deckId userId mode cards.length now
      (.ok created.1.id "Study session started successfully", created.2)

/-- completeStudySession from src/actions/study-actions.ts: unconditionally
writes completed := true and completedAt := now to the owned row, then reports
not-found only if no row matched. -/
def completeStudySession (store : Store) (sessionId deckId : Nat)
    (userId : String) (now : Nat) : CompleteResult × Store :=
  let updated := updateStudySession store sessionId userId
    { completed := some true, completedAt := some (some now) }
  match updated.1 with
  | none => (.err "Study session not found", updated.2)
  | some session => (.ok "Study session completed successfully" session, updated.2)

/-- reviewCard from src/actions/study-actions.ts: always updates card
progress; updates the session counters only when the active session for
(deckId, userId) exists and its id equals the supplied sessionId; reports
success in every case. -/
def reviewCard (store : Store) (sessionId cardId deckId : Nat)
    (userId : String) (isCorrect : Bool) (now : Nat) : ReviewResult × Store :=
  let store1 := (updateCardProgress store cardId userId deckId isCorrect now).2
  let store2 :=
    match getActiveStudySession store1 deckId userId with
    | some currentSession =>
      if currentSession.id == sessionId then
        (updateStudySession store1 sessionId userId
          { cardsStudied := some (currentSession.cardsStudied + 1),
            correctAnswers := some (currentSession.correctAnswers +
              (if isCorrect then 1 else 0)) }).2
      else store1
    | none => store1
  (.ok "Card reviewed successfully", store2)

/-- One durable operation of the session engine, for reasoning about
arbitrary call sequences. -/
inductive LedgerOp where
  | start (deckId : Nat) (userId mode : String) (now : Nat)
  | review (sessionId cardId deckId : Nat) (userId : String) (isCorrect : Bool) (now : Nat)
  | complete (sessionId deckId : Nat) (userId : String) (now : Nat)
deriving Repr, DecidableEq

/-- Apply one operation to the store, discarding the response. -/
def applyOp (store : Store) : LedgerOp → Store
  | .start d u m t => (startStudySession store d u m t).2
  | .review s c d u b t => (reviewCard store s c d u b t).2
  | .complete s d u t => (completeStudySession store s d u t).2

/-- Apply a sequence of operations left to right. -/
def applyOps (store : Store) (ops : List LedgerOp) : Store :=
  ops.foldl applyOp store

/-! Client review state machine (src/components/study-session-modal.tsx). -/

/-- The card payload the client receives: (id, front, back). -/
structure StudyCard where
  id : Nat
  front : String
  back : String
deriving Repr, DecidableEq

/-- JavaScript new Set([...prev, id]): insertion-ordered, duplicates ignored. -/
def setInsert (l : List Nat) (a : Nat) : List Nat :=
  if l.contains a then l else l ++ [a]

/-- The client component state: the useState hooks of StudySessionModal. -/
structure ClientState where
  sessionId : Option Nat
  currentCardIndex : Nat
  showAnswer : Bool
  studyCards : List StudyCard
  correctAnswers : Nat
  cardsAnswered : Nat
  sessionCompleted : Bool
  isPaused : Bool
  skippedCards : List Nat
  bookmarkedCards : List Nat
  wrongCards : List Nat
  timeLeft : Nat
  totalTime : Nat
deriving Repr, DecidableEq

/-- A durable call the client issues to the server actions. -/
inductive ServerCall where
  | review (sessionId cardId deckId : Nat) (isCorrect : Bool)
  | complete (sessionId deckId : Nat)
deriving Repr, DecidableEq

/-- The JavaScript swap [a[i], a[j]] = [a[j], a[i]] on a list.  Inside the
shuffle loop both indices are always in bounds; out-of-bounds indices leave
the list unchanged. -/
def lswap (l : List α) (i j : Nat) : List α :=
  match l[i]?, l[j]? with
  | some x, some y => (l.set i y).set j x
  | _, _ => l

/-- The Fisher-Yates loop of the card preparation effect: for i from
arrangedCards.length - 1 down to 1, swap index i with index r i, where
r i models Math.floor(Math.random() * (i + 1)). -/
def fisherYatesLoop (r : Nat → Nat) : Nat → List α → List α
  | 0, l => l
  | k + 1, l => fisherYatesLoop r k (lswap l (k + 1) (r (k + 1)))

/-- The card preparation effect of StudySessionModal: copy the incoming cards
and, in shuffle mode, run the Fisher-Yates loop once. -/
def prepareStudyCards (mode : String) (r : Nat → Nat) (cards : List StudyCard) :
    List StudyCard :=
  if mode == "shuffle" then fisherYatesLoop r (cards.length - 1) cards else cards

/-- handleCardReview from StudySessionModal: guard on an active session and an
in-range index, call reviewCard (durable), bump the local counters, then
either advance to the next card or complete the session (durable). -/
def handleCardReview (deckId : Nat) (s : ClientState) (difficulty : String) :
    ClientState × List ServerCall :=
  match s.sessionId with
  | none => (s, [])
  | some sid =>
    if h : s.currentCardIndex < s.studyCards.length then
      let currentCard := s.studyCards.get ⟨s.currentCardIndex, h⟩
      let isCorrect := difficulty != "incorrect"
      let s1 := { s with
        cardsAnswered := s.cardsAnswered + 1,
        correctAnswers := s.correctAnswers + (if isCorrect then 1 else 0),
        wrongCards := if isCorrect then s.wrongCards
                      else setInsert s.wrongCards currentCard.id }
      if s.currentCardIndex < s.studyCards.length - 1 then
        ({ s1 with currentCardIndex := s.currentCardIndex + 1,
                   showAnswer := false, timeLeft := 30 },
         [.review sid currentCard.id deckId isCorrect])
      else
        ({ s1 with sessionCompleted := true },
         [.review sid currentCard.id deckId isCorrect, .complete sid deckId])
    else (s, [])

/-- goToNextCard from StudySessionModal: advance only when not on the last
card; moving also hides the answer and resets the per-card timer. -/
def goToNextCard (s : ClientState) : ClientState :=
  if s.currentCardIndex < s.studyCards.length - 1 then
    { s with currentCardIndex := s.currentCardIndex + 1,
             showAnswer := false, timeLeft := 30 }
  else s

/-- skipCard from StudySessionModal: record the current card id in the skipped
set, then goToNextCard.  It issues no server call.  (With the index out of
range the source would fault reading .id of undefined; that unreachable case
is modelled as skipping the insertion.) -/
def skipCard (s : ClientState) : ClientState × List ServerCall :=
  match s.studyCards[s.currentCardIndex]? with
  | some c => (goToNextCard { s with skippedCards := setInsert s.skippedCards c.id }, [])
  | none => (goToNextCard s, [])

/-- One tick of the timed-mode interval of StudySessionModal.  The interval
only runs under the guard of the effect (timed mode, active uncompleted
session, not paused, answer shown); when the countdown is about to reach zero
it invokes handleCardReview with difficulty medium and resets the countdown
to 30 seconds, otherwise it decrements the countdown. -/
def timedTick (mode : String) (deckId : Nat) (s : ClientState) :
    ClientState × List ServerCall :=
  if mode == "timed" && s.sessionId.isSome && !s.sessionCompleted &&
      !s.isPaused && s.showAnswer then
    if s.timeLeft ≤ 1 then
      (( { (handleCardReview deckId s "medium").1 with timeLeft := 30 }),
       (handleCardReview deckId s "medium").2)
    else ({ s with timeLeft := s.timeLeft - 1 }, [])
  else (s, [])

/-! Helper lemmas. -/

theorem pickLatest_ne_none (a : StudySession) (rest : List StudySession) :
    pickLatest (a :: rest) ≠ none := by
  simp only [pickLatest]
  cases pickLatest rest with
  | none => simp
  | some t =>
    by_cases hlt : t.startedAt > a.startedAt <;> simp [hlt]

theorem pickLatest_eq_none {l : List StudySession} (h : pickLatest l = none) :
    l = [] := by
  cases l with
  | nil => rfl
  | cons a rest => exact absurd h (pickLatest_ne_none a rest)

theorem pickLatest_mem {l : List StudySession} {s : StudySession}
    (h : pickLatest l = some s) : s ∈ l := by
  induction l with
  | nil => simp [pickLatest] at h
  | cons a rest ih =>
    simp only [pickLatest] at h
    cases hr : pickLatest rest with
    | none =>
      rw [hr] at h
      simp at h
      simp [h]
    | some t =>
      rw [hr] at h
      by_cases hlt : t.startedAt > a.startedAt
      · simp [hlt] at h
        subst h
        exact List.mem_cons_of_mem a (ih hr)
      · simp [hlt] at h
        simp [h]

theorem cons_get_set_perm (t : List α) (k : Nat) (hk : k < t.length) (a : α) :
    List.Perm (t.get ⟨k, hk⟩ :: t.set k a) (a :: t) := by
  induction t generalizing k with
  | nil => exact absurd hk (Nat.not_lt_zero k)
  | cons b t' ih =>
    cases k with
    | zero => exact List.Perm.swap a b t'
    | succ m =>
      have hm : m < t'.length := Nat.lt_of_succ_lt_succ hk
      have step1 : List.Perm (t'.get ⟨m, hm⟩ :: b :: t'.set m a)
          (b :: t'.get ⟨m, hm⟩ :: t'.set m a) := List.Perm.swap b _ _
      have step2 : List.Perm (b :: t'.get ⟨m, hm⟩ :: t'.set m a) (b :: a :: t') :=
        (ih m hm).cons b
      have step3 : List.Perm (b :: a :: t') (a :: b :: t') := List.Perm.swap a b t'
      exact (step1.trans step2).trans step3

theorem set_set_swap_perm (l : List α) (i j : Nat) (hi : i < l.length)
    (hj : j < l.length) :
    List.Perm ((l.set i (l.get ⟨j, hj⟩)).set j (l.get ⟨i, hi⟩)) l := by
  induction l generalizing i j with
  | nil => exact absurd hi (Nat.not_lt_zero i)
  | cons a t ih =>
    cases i with
    | zero =>
      cases j with
      | zero => exact List.Perm.refl _
      | succ m =>
        have hm : m < t.length := Nat.lt_of_succ_lt_succ hj
        exact cons_get_set_perm t m hm a
    | succ k =>
      have hk : k < t.length := Nat.lt_of_succ_lt_succ hi
      cases j with
      | zero => exact cons_get_set_perm t k hk a
      | succ m =>
        have hm : m < t.length := Nat.lt_of_succ_lt_succ hj
        exact (ih k m hk hm).cons a

theorem lswap_perm (l : List α) (i j : Nat) : List.Perm (lswap l i j) l := by
  unfold lswap
  cases hi : l[i]? with
  | none => exact List.Perm.refl l
  | some x =>
    cases hj : l[j]? with
    | none => exact List.Perm.refl l
    | some y =>
      have hi' : i < l.length := by
        by_contra hc
        rw [List.getElem?_eq_none (Nat.le_of_not_lt hc)] at hi
        exact Option.noConfusion hi
      have hj' : j < l.length := by
        by_contra hc
        rw [List.getElem?_eq_none (Nat.le_of_not_lt hc)] at hj
        exact Option.noConfusion hj
      have hx : l.get ⟨i, hi'⟩ = x := by
        have := List.getElem?_eq_getElem hi'
        rw [hi] at this
        exact (Option.some.inj this).symm
      have hy : l.get ⟨j, hj'⟩ = y := by
        have := List.getElem?_eq_getElem hj'
        rw [hj] at this
        exact (Option.some.inj this).symm
      rw [← hx, ← hy]
      exact set_set_swap_perm l i j hi' hj'

theorem fisherYatesLoop_perm (r : Nat → Nat) (n : Nat) (l : List α) :
    List.Perm (fisherYatesLoop r n l) l := by
  induction n generalizing l with
  | zero => exact List.Perm.refl l
  | succ k ih => exact (ih _).trans (lswap_perm l (k + 1) (r (k + 1)))

theorem updateCardProgress_sessions (store : Store) (cardId : Nat)
    (userId : String) (deckId : Nat) (isCorrect : Bool) (now : Nat) :
    (updateCardProgress store cardId userId deckId isCorrect now).2.sessions =
      store.sessions := by
  unfold updateCardProgress
  cases findCardProgress store cardId userId <;> rfl

theorem getActive_congr_sessions {store1 store2 : Store}
    (h : store1.sessions = store2.sessions) (deckId : Nat) (userId : String) :
    getActiveStudySession store1 deckId userId =
      getActiveStudySession store2 deckId userId := by
  unfold getActiveStudySession activeFor
  rw [h]

theorem getActive_none_of_filter_nil {store : Store} {deckId : Nat} {userId : String}
    (h : activeFor store deckId userId = []) :
    getActiveStudySession store deckId userId = none := by
  unfold getActiveStudySession
  rw [h]
  rfl

theorem filter_nil_of_getActive_none {store : Store} {deckId : Nat} {userId : String}
    (h : getActiveStudySession store deckId userId = none) :
    activeFor store deckId userId = [] :=
  pickLatest_eq_none h

theorem getActive_mem {store : Store} {deckId : Nat} {userId : String}
    {s : StudySession} (h : getActiveStudySession store deckId userId = some s) :
    s ∈ store.sessions ∧ sessionMatchesActive deckId userId s = true := by
  have hmem := pickLatest_mem h
  unfold activeFor at hmem
  exact ⟨(List.mem_filter.mp hmem).1, (List.mem_filter.mp hmem).2⟩

/-! C5 -/

/-- C5: for every deck with at least one card, shuffle-mode sequencing (the
Fisher-Yates loop of the card preparation effect, with the random draw of
step i landing in the interval from 0 to i) produces a permutation of its
input: the output has the same length and the same multiset of card ids. -/
theorem shuffle_mode_permutation (cards : List StudyCard) (r : Nat → Nat)
    (hN : 1 ≤ cards.length) (hr : ∀ i, r i ≤ i) :
    (prepareStudyCards "shuffle" r cards).length = cards.length ∧
    ((prepareStudyCards "shuffle" r cards).map (fun c => c.id) : Multiset Nat) =
      ((cards.map (fun c => c.id)) : Multiset Nat) := by
  have hperm : List.Perm (prepareStudyCards "shuffle" r cards) cards := by
    unfold prepareStudyCards
    rw [if_pos (show ("shuffle" == "shuffle") = true from rfl)]
    exact fisherYatesLoop_perm r (cards.length - 1) cards
  exact ⟨hperm.length_eq, Multiset.coe_eq_coe.mpr (hperm.map (fun c => c.id))⟩

/-- A three-card deck used to instantiate the shuffle theorem. -/
def c5Cards : List StudyCard :=
  [{ id := 1, front := "q1", back := "a1" },
   { id := 2, front := "q2", back := "a2" },
   { id := 3, front := "q3", back := "a3" }]

theorem shuffle_mode_permutation_witness :
    1 ≤ c5Cards.length ∧ (∀ i : Nat, (fun _ => 0 : Nat → Nat) i ≤ i) ∧
    ((prepareStudyCards "shuffle" (fun _ => 0) c5Cards).length = c5Cards.length ∧
     ((prepareStudyCards "shuffle" (fun _ => 0) c5Cards).map (fun c => c.id) : Multiset Nat) =
       ((c5Cards.map (fun c => c.id)) : Multiset Nat)) :=
  ⟨by decide, fun i => Nat.zero_le i,
   shuffle_mode_permutation c5Cards (fun _ => 0) (by decide) (fun i => Nat.zero_le i)⟩

/-! C1 -/

/-- The store used for the C1 counterexample: one deck owned by user u with
one card and no study session at all. -/
def c1Store : Store :=
  { decks := [{ id := 1, userId := "u" }],
    cards := [{ id := 1, deckId := 1, front := "q", back := "a" }],
    sessions := [], progress := [], nextSessionId := 1, nextProgressId := 1 }

/-- C1 counterexample: with no non-completed session at all for the deck and
user, reviewCard still reports success instead of failing with
SessionNotFound. -/
theorem reviewCard_missing_session_cex :
    getActiveStudySession c1Store 1 "u" = none ∧
    (reviewCard c1Store 7 1 1 "u" true 0).1 =
      ReviewResult.ok "Card reviewed successfully" :=
  ⟨rfl, rfl⟩

/-- C1 amended: when no non-completed session owned by the user with the given
sessionId exists for the deck, reviewCard still reports success (it never
fails with SessionNotFound); it records the card progress and leaves the
session table unchanged. -/
theorem reviewCard_missing_session_reports_success (store : Store)
    (sessionId cardId deckId : Nat) (userId : String) (isCorrect : Bool) (now : Nat)
    (h : ∀ s, getActiveStudySession store deckId userId = some s → s.id ≠ sessionId) :
    (reviewCard store sessionId cardId deckId userId isCorrect now).1 =
      ReviewResult.ok "Card reviewed successfully" ∧
    (reviewCard store sessionId cardId deckId userId isCorrect now).2.sessions =
      store.sessions := by
  have hsess := updateCardProgress_sessions store cardId userId deckId isCorrect now
  have hact := getActive_congr_sessions hsess deckId userId
  refine ⟨rfl, ?_⟩
  unfold reviewCard
  cases hcur : getActiveStudySession
      (updateCardProgress store cardId userId deckId isCorrect now).2 deckId userId with
  | none => simp [hcur, hsess]
  | some currentSession =>
    have hne : currentSession.id ≠ sessionId := h currentSession (hact ▸ hcur)
    simp [hcur, hne, hsess]

theorem reviewCard_missing_session_witness :
    (∀ s, getActiveStudySession c1Store 1 "u" = some s → s.id ≠ 7) ∧
    ((reviewCard c1Store 7 1 1 "u" true 0).1 =
        ReviewResult.ok "Card reviewed successfully" ∧
     (reviewCard c1Store 7 1 1 "u" true 0).2.sessions = c1Store.sessions) :=
  ⟨fun s hs => Option.noConfusion hs,
   reviewCard_missing_session_reports_success c1Store 7 1 1 "u" true 0
     (fun s hs => Option.noConfusion hs)⟩

/-! C10 -/

/-- The active session of the C10 witness store. -/
def c10Session : StudySession :=
  { id := 10, deckId := 1, userId := "u", mode := "standard", totalCards := 2,
    cardsStudied := 1, correctAnswers := 1, completed := false,
    startedAt := 0, completedAt := none }

/-- A store with a non-completed session for deck 1 and user u whose deck now
has zero cards. -/
def c10Store : Store :=
  { decks := [{ id := 1, userId := "u" }], cards := [],
    sessions := [c10Session], progress := [],
    nextSessionId := 11, nextProgressId := 1 }

/-- C10: start checks for an existing non-completed session before inspecting
the deck's cards: whenever such a session exists for (deck, user), start
succeeds with that session's id and leaves the store unchanged, whatever the
deck's card list (in particular when it is empty).  Contrapositively, the
empty-deck failure is only reachable when no active session exists. -/
theorem startStudySession_resume_before_empty_check (store : Store)
    (deckId : Nat) (userId mode : String) (now : Nat) (s : StudySession)
    (hs : getActiveStudySession store deckId userId = some s) :
    startStudySession store deckId userId mode now =
      (StartResult.ok s.id "Resuming existing study session", store) := by
  unfold startStudySession
  rw [hs]

theorem startStudySession_resume_before_empty_check_witness :
    getActiveStudySession c10Store 1 "u" = some c10Session ∧
    startStudySession c10Store 1 "u" "standard" 5 =
      (StartResult.ok 10 "Resuming existing study session", c10Store) :=
  ⟨rfl, startStudySession_resume_before_empty_check c10Store 1 "u" "standard" 5
    c10Session rfl⟩

/-! C7 -/

/-- C7 counterexample: deck 1 of this store has an empty card list, yet start
succeeds (resuming the active session) instead of failing with EmptyDeck. -/
theorem startStudySession_empty_deck_cex :
    getDeckCards c10Store 1 "u" = [] ∧
    (startStudySession c10Store 1 "u" "standard" 5).1 =
      StartResult.ok 10 "Resuming existing study session" :=
  ⟨rfl, rfl⟩

/-- C7 amended: for a deck whose card list is empty, start fails with the
no-cards error and leaves the store unchanged (no session record is created),
provided no non-completed session for (deck, user) exists; with an active
session present, start resumes it instead. -/
theorem startStudySession_empty_deck (store : Store) (deckId : Nat)
    (userId mode : String) (now : Nat)
    (hns : getActiveStudySession store deckId userId = none)
    (hempty : getDeckCards store deckId userId = []) :
    startStudySession store deckId userId mode now =
      (StartResult.err "No cards found in this deck", store) := by
  unfold startStudySession
  rw [hns]
  simp [hempty]

/-- A store with one owned deck, no cards and no sessions. -/
def c7Store : Store :=
  { decks := [{ id := 1, userId := "u" }], cards := [], sessions := [],
    progress := [], nextSessionId := 1, nextProgressId := 1 }

theorem startStudySession_empty_deck_witness :
    getActiveStudySession c7Store 1 "u" = none ∧
    getDeckCards c7Store 1 "u" = [] ∧
    startStudySession c7Store 1 "u" "standard" 0 =
      (StartResult.err "No cards found in this deck", c7Store) :=
  ⟨rfl, rfl, startStudySession_empty_deck c7Store 1 "u" "standard" 0 rfl rfl⟩

/-! C4 -/

/-- The at-most-one-active invariant: no two distinct session rows are both
non-completed for the same deck and user. -/
def AtMostOneActive (store : Store) : Prop :=
  store.sessions.Pairwise (fun s t =>
    s.completed = false → t.completed = false →
    s.deckId = t.deckId → s.userId = t.userId → False)

theorem getActive_after_create {store : Store} {deckId : Nat}
    {userId mode : String} {totalCards now : Nat}
    (hnone : getActiveStudySession store deckId userId = none) :
    getActiveStudySession
        (createStudySession store deckId userId mode totalCards now).2 deckId userId =
      some (createStudySession store deckId userId mode totalCards now).1 := by
  have hfil := filter_nil_of_getActive_none hnone
  unfold activeFor at hfil
  unfold getActiveStudySession activeFor createStudySession
  simp only [List.filter_append, hfil, List.nil_append]
  simp [sessionMatchesActive, pickLatest]

/-- C4: start is idempotent before completion: it preserves the
at-most-one-active invariant (creating no duplicate session); when a
non-completed session exists it returns that session's id and changes
nothing; and two consecutive start calls return the same session id. -/
theorem startStudySession_idempotent (store : Store) (deckId : Nat)
    (userId mode : String) (t1 t2 : Nat) (hone : AtMostOneActive store) :
    AtMostOneActive (startStudySession store deckId userId mode t1).2 ∧
    (∀ s, getActiveStudySession store deckId userId = some s →
      startStudySession store deckId userId mode t1 =
        (StartResult.ok s.id "Resuming existing study session", store)) ∧
    (∀ i m, (startStudySession store deckId userId mode t1).1 = StartResult.ok i m →
      ∃ m2, (startStudySession (startStudySession store deckId userId mode t1).2
          deckId userId mode t2).1 = StartResult.ok i m2) := by
  cases hact : getActiveStudySession store deckId userId with
  | some s =>
    have hres : startStudySession store deckId userId mode t1 =
        (StartResult.ok s.id "Resuming existing study session", store) := by
      unfold startStudySession
      rw [hact]
    refine ⟨by rw [hres]; exact hone, ?_, ?_⟩
    · intro s' hs'
      cases hs'
      exact hres
    · intro i m hok
      rw [hres] at hok
      cases hok
      refine ⟨"Resuming existing study session", ?_⟩
      rw [hres]
      unfold startStudySession
      rw [hact]
  | none =>
    have hfil := filter_nil_of_getActive_none hact
    by_cases hlen : (getDeckCards store deckId userId).length = 0
    · have hres : startStudySession store deckId userId mode t1 =
          (StartResult.err "No cards found in this deck", store) := by
        unfold startStudySession
        rw [hact]
        simp [hlen]
      refine ⟨by rw [hres]; exact hone, ?_, ?_⟩
      · intro s' hs'
        exact Option.noConfusion hs'
      · intro i m hok
        rw [hres] at hok
        cases hok
    · have hres : startStudySession store deckId userId mode t1 =
          (StartResult.ok store.nextSessionId "Study session started successfully",
           (createStudySession store deckId userId mode
             (getDeckCards store deckId userId).length t1).2) := by
        unfold startStudySession
        rw [hact]
        simp [hlen]
        rfl
      refine ⟨?_, ?_, ?_⟩
      · rw [hres]
        unfold AtMostOneActive createStudySession at *
        simp only []
        rw [List.pairwise_append]
        refine ⟨hone, List.pairwise_singleton _ _, ?_⟩
        intro a ha b hb hac hbc hdeck huser
        simp only [List.mem_singleton] at hb
        subst hb
        have hamem : a ∈ activeFor store deckId userId := by
          apply List.mem_filter.mpr
          refine ⟨ha, ?_⟩
          simp [sessionMatchesActive, hac]
          exact ⟨hdeck, huser⟩
        rw [hfil] at hamem
        exact absurd hamem (List.not_mem_nil a)
      · intro s' hs'
        exact Option.noConfusion hs'
      · intro i m hok
        rw [hres] at hok
        cases hok
        refine ⟨"Resuming existing study session", ?_⟩
        rw [hres]
        unfold startStudySession
        rw [getActive_after_create hact]
        rfl

/-- Witness store for start idempotence: a fresh store with a two-card deck. -/
def c4Store : Store :=
  { decks := [{ id := 1, userId := "u" }],
    cards := [{ id := 1, deckId := 1, front := "q1", back := "a1" },
              { id := 2, deckId := 1, front := "q2", back := "a2" }],
    sessions := [], progress := [], nextSessionId := 1, nextProgressId := 1 }

theorem startStudySession_idempotent_witness :
    AtMostOneActive c4Store ∧
    (AtMostOneActive (startStudySession c4Store 1 "u" "standard" 0).2 ∧
     (∀ s, getActiveStudySession c4Store 1 "u" = some s →
       startStudySession c4Store 1 "u" "standard" 0 =
         (StartResult.ok s.id "Resuming existing study session", c4Store)) ∧
     (∀ i m, (startStudySession c4Store 1 "u" "standard" 0).1 = StartResult.ok i m →
       ∃ m2, (startStudySession (startStudySession c4Store 1 "u" "standard" 0).2
           1 "u" "standard" 1).1 = StartResult.ok i m2)) :=
  ⟨List.Pairwise.nil,
   startStudySession_idempotent c4Store 1 "u" "standard" 0 1 List.Pairwise.nil⟩

/-! C3 -/

/-- Whether a completeStudySession call reported success. -/
def CompleteResult.isOk : CompleteResult → Bool
  | .ok _ _ => true
  | .err _ => false

/-- The updates completeStudySession writes: completed true, completedAt now. -/
def completionUpdates (now : Nat) : SessionUpdates :=
  { completed := some true, completedAt := some (some now) }

theorem completeStudySession_snd (store : Store) (sessionId deckId : Nat)
    (userId : String) (now : Nat) :
    (completeStudySession store sessionId deckId userId now).2 =
      (updateStudySession store sessionId userId (completionUpdates now)).2 := by
  unfold completeStudySession completionUpdates
  simp only []
  cases h : (updateStudySession store sessionId userId
    { completed := some true, completedAt := some (some now) }).1 <;> rfl

theorem completeStudySession_isOk (store : Store) (sessionId deckId : Nat)
    (userId : String) (now : Nat) :
    (completeStudySession store sessionId deckId userId now).1.isOk =
      ((store.sessions.filter (sessionMatchesOwn sessionId userId)).head?).isSome := by
  unfold completeStudySession updateStudySession
  cases h : (store.sessions.filter (sessionMatchesOwn sessionId userId)).head? <;>
    simp [h, CompleteResult.isOk]

theorem filter_own_map_update (l : List StudySession) (sessionId : Nat)
    (userId : String) (u : SessionUpdates) :
    (l.map (fun s => if sessionMatchesOwn sessionId userId s
        then applySessionUpdates u s else s)).filter
          (sessionMatchesOwn sessionId userId) =
      (l.filter (sessionMatchesOwn sessionId userId)).map (applySessionUpdates u) := by
  induction l with
  | nil => rfl
  | cons a t ih =>
    by_cases ha : sessionMatchesOwn sessionId userId a = true
    · have hmatch : sessionMatchesOwn sessionId userId (applySessionUpdates u a) = true := ha
      simp only [List.map_cons, List.filter_cons, ha, if_pos, hmatch, ih]
    · have hmatch : sessionMatchesOwn sessionId userId (applySessionUpdates u a) = false :=
        Bool.eq_false_iff.mpr ha
      simp only [List.map_cons, List.filter_cons, Bool.eq_false_iff.mpr ha, hmatch, ih]
      simp [Bool.eq_false_iff.mpr ha]

theorem mem_update_matches {l : List StudySession} {sessionId : Nat}
    {userId : String} {u : SessionUpdates} {s : StudySession}
    (hs : s ∈ l.map (fun x => if sessionMatchesOwn sessionId userId x
        then applySessionUpdates u x else x))
    (hm : sessionMatchesOwn sessionId userId s = true) :
    ∃ a, s = applySessionUpdates u a := by
  rcases List.mem_map.mp hs with ⟨a, _, rfl⟩
  by_cases hma : sessionMatchesOwn sessionId userId a = true
  · exact ⟨a, by rw [if_pos hma]⟩
  · rw [if_neg hma] at hm
    exact absurd hm hma

/-- Store for the double-completion counterexample: one non-completed session. -/
def c3Session : StudySession :=
  { id := 10, deckId := 1, userId := "u", mode := "standard",
    totalCards := 1, cardsStudied := 1, correctAnswers := 1, completed := false,
    startedAt := 0, completedAt := none }

def c3Store : Store :=
  { decks := [{ id := 1, userId := "u" }],
    cards := [{ id := 1, deckId := 1, front := "q", back := "a" }],
    sessions := [c3Session],
    progress := [], nextSessionId := 11, nextProgressId := 1 }

/-- C3 counterexample: completing session 10 at time 5 stores completedAt 5;
completing it again at time 9 overwrites completedAt with 9, so the second
complete call does not leave completedAt unchanged. -/
theorem completeStudySession_twice_cex :
    ((completeStudySession c3Store 10 1 "u" 5).2.sessions.map
      (fun s => s.completedAt)) = [some 5] ∧
    ((completeStudySession (completeStudySession c3Store 10 1 "u" 5).2
        10 1 "u" 9).2.sessions.map (fun s => s.completedAt)) = [some 9] := by
  exact ⟨by decide, by decide⟩

/-- C3 amended: a second complete call on an already-completed session by the
same owner still succeeds (not an error) and leaves cardsStudied and
correctAnswers of every session unchanged, and the session stays completed;
but completedAt is overwritten with the second call's time. -/
theorem completeStudySession_second_call (store : Store) (sessionId deckId : Nat)
    (userId : String) (t1 t2 : Nat)
    (h : (completeStudySession store sessionId deckId userId t1).1.isOk = true) :
    (completeStudySession (completeStudySession store sessionId deckId userId t1).2
        sessionId deckId userId t2).1.isOk = true ∧
    ((completeStudySession (completeStudySession store sessionId deckId userId t1).2
        sessionId deckId userId t2).2.sessions.map
          (fun s => (s.cardsStudied, s.correctAnswers)) =
      (completeStudySession store sessionId deckId userId t1).2.sessions.map
        (fun s => (s.cardsStudied, s.correctAnswers))) ∧
    (∀ s ∈ (completeStudySession (completeStudySession store sessionId deckId userId t1).2
        sessionId deckId userId t2).2.sessions,
      sessionMatchesOwn sessionId userId s = true →
        s.completed = true ∧ s.completedAt = some t2) := by
  have hsnd1 := completeStudySession_snd store sessionId deckId userId t1
  have hsess1 : (completeStudySession store sessionId deckId userId t1).2.sessions =
      store.sessions.map (fun s => if sessionMatchesOwn sessionId userId s
        then applySessionUpdates (completionUpdates t1) s else s) := by
    rw [hsnd1]; rfl
  have hsnd2 := completeStudySession_snd
    (completeStudySession store sessionId deckId userId t1).2 sessionId deckId userId t2
  have hsess2 : (completeStudySession (completeStudySession store sessionId deckId userId t1).2
      sessionId deckId userId t2).2.sessions =
      (completeStudySession store sessionId deckId userId t1).2.sessions.map
        (fun s => if sessionMatchesOwn sessionId userId s
          then applySessionUpdates (completionUpdates t2) s else s) := by
    rw [hsnd2]; rfl
  refine ⟨?_, ?_, ?_⟩
  · rw [completeStudySession_isOk] at h ⊢
    rw [hsess1, filter_own_map_update, List.head?_map]
    rcases Option.isSome_iff_exists.mp h with ⟨a, ha⟩
    rw [ha]
    rfl
  · rw [hsess2, List.map_map]
    apply List.map_congr_left
    intro a _
    by_cases ha : sessionMatchesOwn sessionId userId a = true <;>
      simp [ha, applySessionUpdates, completionUpdates]
  · intro s hs hm
    rw [hsess2] at hs
    rcases mem_update_matches hs hm with ⟨a, rfl⟩
    exact ⟨rfl, rfl⟩

theorem completeStudySession_second_call_witness :
    (completeStudySession c3Store 10 1 "u" 5).1.isOk = true ∧
    ((completeStudySession (completeStudySession c3Store 10 1 "u" 5).2
        10 1 "u" 9).1.isOk = true ∧
     ((completeStudySession (completeStudySession c3Store 10 1 "u" 5).2
        10 1 "u" 9).2.sessions.map (fun s => (s.cardsStudied, s.correctAnswers)) =
       (completeStudySession c3Store 10 1 "u" 5).2.sessions.map
         (fun s => (s.cardsStudied, s.correctAnswers))) ∧
     (∀ s ∈ (completeStudySession (completeStudySession c3Store 10 1 "u" 5).2
        10 1 "u" 9).2.sessions,
       sessionMatchesOwn 10 "u" s = true →
         s.completed = true ∧ s.completedAt = some 9)) :=
  ⟨by decide, completeStudySession_second_call c3Store 10 1 "u" 5 9 (by decide)⟩

/-! C2 -/

/-- The spec invariant on a card_progress row: correctReviews bounded by
totalReviews, masteryLevel in 0..100 and equal to the floored accuracy
percentage (0 when no reviews exist). -/
def ProgressInv (p : CardProgress) : Prop :=
  p.correctReviews ≤ p.totalReviews ∧ p.masteryLevel ≤ 100 ∧
  (0 < p.totalReviews → p.masteryLevel = 100 * p.correctReviews / p.totalReviews) ∧
  (p.totalReviews = 0 → p.masteryLevel = 0)

theorem findCardProgress_mem {store : Store} {cardId : Nat} {userId : String}
    {p : CardProgress} (h : findCardProgress store cardId userId = some p) :
    p ∈ store.progress := by
  unfold findCardProgress at h
  have hmem := List.mem_of_mem_head? (Option.mem_def.mpr h)
  exact (List.mem_filter.mp hmem).1

theorem startStudySession_progress (store : Store) (deckId : Nat)
    (userId mode : String) (now : Nat) :
    (startStudySession store deckId userId mode now).2.progress = store.progress := by
  unfold startStudySession
  cases getActiveStudySession store deckId userId with
  | some s => rfl
  | none =>
    simp only []
    split <;> rfl

theorem completeStudySession_progress (store : Store) (sessionId deckId : Nat)
    (userId : String) (now : Nat) :
    (completeStudySession store sessionId deckId userId now).2.progress =
      store.progress := by
  rw [completeStudySession_snd]
  rfl

theorem reviewCard_progress (store : Store) (sessionId cardId deckId : Nat)
    (userId : String) (isCorrect : Bool) (now : Nat) :
    (reviewCard store sessionId cardId deckId userId isCorrect now).2.progress =
      (updateCardProgress store cardId userId deckId isCorrect now).2.progress := by
  unfold reviewCard
  simp only []
  cases getActiveStudySession
      (updateCardProgress store cardId userId deckId isCorrect now).2 deckId userId with
  | none => rfl
  | some cur =>
    by_cases hc : (cur.id == sessionId) = true <;> simp [hc] <;> rfl

theorem updateCardProgress_inv (store : Store) (cardId : Nat) (userId : String)
    (deckId : Nat) (isCorrect : Bool) (now : Nat)
    (h : ∀ p ∈ store.progress, ProgressInv p) :
    ∀ p ∈ (updateCardProgress store cardId userId deckId isCorrect now).2.progress,
      ProgressInv p := by
  unfold updateCardProgress
  cases hf : findCardProgress store cardId userId with
  | none =>
    simp only []
    intro p hp
    rcases List.mem_append.mp hp with hmem | hmem
    · exact h p hmem
    · simp only [List.mem_singleton] at hmem
      subst hmem
      cases isCorrect <;>
        exact ⟨by simp, by simp, by intro _; simp, by intro hz; simp at hz⟩
  | some ex =>
    have hex := h ex (findCardProgress_mem hf)
    simp only []
    intro p hp
    rcases List.mem_map.mp hp with ⟨q, hq, rfl⟩
    by_cases hid : (q.id == ex.id) = true
    · rw [if_pos hid]
      have hle : ex.correctReviews + (if isCorrect then 1 else 0) ≤ ex.totalReviews + 1 := by
        have := hex.1
        cases isCorrect <;> simp <;> omega
      have hcap : (ex.correctReviews + (if isCorrect then 1 else 0)) * 100 /
          (ex.totalReviews + 1) ≤ 100 := by
        have hmul : (ex.correctReviews + (if isCorrect then 1 else 0)) * 100 ≤
            (ex.totalReviews + 1) * 100 := Nat.mul_le_mul_right 100 hle
        have hdiv : (ex.correctReviews + (if isCorrect then 1 else 0)) * 100 /
            (ex.totalReviews + 1) ≤ (ex.totalReviews + 1) * 100 / (ex.totalReviews + 1) :=
          Nat.div_le_div_right hmul
        rwa [Nat.mul_div_cancel_left 100 (Nat.succ_pos ex.totalReviews)] at hdiv
      refine ⟨hle, ?_, ?_, ?_⟩
      · exact min_le_left 100 _
      · intro _
        show min 100 _ = _
        rw [Nat.min_eq_right hcap, Nat.mul_comm]
      · intro hz
        exact absurd hz (Nat.succ_ne_zero ex.totalReviews)
    · rw [if_neg hid]
      exact h q hq

/-- C2: under every sequence of engine operations, every card_progress row
keeps correctReviews at most totalReviews and masteryLevel between 0 and 100,
with masteryLevel the floor of 100 times correctReviews over totalReviews
when totalReviews is positive and 0 otherwise (Nat values are nonnegative by
type).  JavaScript number arithmetic is idealized as exact arithmetic. -/
theorem cardProgress_invariants (store : Store) (ops : List LedgerOp)
    (h : ∀ p ∈ store.progress, ProgressInv p) :
    ∀ p ∈ (applyOps store ops).progress, ProgressInv p := by
  induction ops generalizing store with
  | nil => exact h
  | cons op rest ih =>
    show ∀ p ∈ (applyOps (applyOp store op) rest).progress, ProgressInv p
    apply ih
    cases op with
    | start d u m t =>
      show ∀ p ∈ (startStudySession store d u m t).2.progress, ProgressInv p
      rw [startStudySession_progress]
      exact h
    | review sid cid did uid b t =>
      show ∀ p ∈ (reviewCard store sid cid did uid b t).2.progress, ProgressInv p
      rw [reviewCard_progress]
      exact updateCardProgress_inv store cid uid did b t h
    | complete sid did uid t =>
      show ∀ p ∈ (completeStudySession store sid did uid t).2.progress, ProgressInv p
      rw [completeStudySession_progress]
      exact h

/-- A review sequence exercising the mastery invariant: start, one correct
review and one incorrect review of two different cards. -/
def c2Ops : List LedgerOp :=
  [.start 1 "u" "standard" 0, .review 1 1 1 "u" true 1,
   .review 1 2 1 "u" false 2, .review 1 1 1 "u" false 3]

theorem cardProgress_invariants_witness :
    (∀ p ∈ c4Store.progress, ProgressInv p) ∧
    (∀ p ∈ (applyOps c4Store c2Ops).progress, ProgressInv p) :=
  ⟨by intro p hp; exact absurd hp (List.not_mem_nil p),
   cardProgress_invariants c4Store c2Ops
     (by intro p hp; exact absurd hp (List.not_mem_nil p))⟩

/-! C9 -/

theorem map_idTotal_update (l : List StudySession) (sessionId : Nat)
    (userId : String) (u : SessionUpdates) :
    (l.map (fun s => if sessionMatchesOwn sessionId userId s
        then applySessionUpdates u s else s)).map (fun s => (s.id, s.totalCards)) =
      l.map (fun s => (s.id, s.totalCards)) := by
  rw [List.map_map]
  apply List.map_congr_left
  intro a _
  by_cases ha : sessionMatchesOwn sessionId userId a = true <;>
    simp [ha, applySessionUpdates, Function.comp]

theorem inv_map_if_update (l : List StudySession) (sessionId : Nat)
    (userId : String) (u : SessionUpdates)
    (h : ∀ s ∈ l, s.correctAnswers ≤ s.cardsStudied)
    (hupd : ∀ s ∈ l, (applySessionUpdates u s).correctAnswers ≤
      (applySessionUpdates u s).cardsStudied) :
    ∀ s ∈ l.map (fun x => if sessionMatchesOwn sessionId userId x
        then applySessionUpdates u x else x),
      s.correctAnswers ≤ s.cardsStudied := by
  intro s hs
  rcases List.mem_map.mp hs with ⟨a, ha, rfl⟩
  by_cases hma : sessionMatchesOwn sessionId userId a = true
  · rw [if_pos hma]
    exact hupd a ha
  · rw [if_neg hma]
    exact h a ha

theorem applyOp_session_inv (store : Store) (op : LedgerOp)
    (h : ∀ s ∈ store.sessions, s.correctAnswers ≤ s.cardsStudied) :
    (∀ s ∈ (applyOp store op).sessions, s.correctAnswers ≤ s.cardsStudied) ∧
    ∃ created, (applyOp store op).sessions.map (fun s => (s.id, s.totalCards)) =
      store.sessions.map (fun s => (s.id, s.totalCards)) ++ created := by
  cases op with
  | start d u m t =>
    simp only [applyOp]
    unfold startStudySession
    cases getActiveStudySession store d u with
    | some s => exact ⟨h, [], by simp⟩
    | none =>
      simp only []
      split
      · exact ⟨h, [], by simp⟩
      · unfold createStudySession
        simp only []
        constructor
        · intro s hs
          rcases List.mem_append.mp hs with hmem | hmem
          · exact h s hmem
          · simp only [List.mem_singleton] at hmem
            subst hmem
            exact Nat.le_refl 0
        · refine ⟨[(store.nextSessionId, (getDeckCards store d u).length)], ?_⟩
          simp
  | complete sid did uid t =>
    have hsess : (applyOp store (.complete sid did uid t)).sessions =
        store.sessions.map (fun s => if sessionMatchesOwn sid uid s
          then applySessionUpdates (completionUpdates t) s else s) := by
      show (completeStudySession store sid did uid t).2.sessions = _
      rw [completeStudySession_snd]
      rfl
    rw [hsess]
    constructor
    · apply inv_map_if_update store.sessions sid uid (completionUpdates t) h
      intro s hs
      exact h s hs
    · exact ⟨[], by rw [map_idTotal_update]; simp⟩
  | review sid cid did uid b t =>
    have hs1 : (updateCardProgress store cid uid did b t).2.sessions = store.sessions :=
      updateCardProgress_sessions store cid uid did b t
    simp only [applyOp]
    unfold reviewCard
    simp only []
    cases hcur : getActiveStudySession
        (updateCardProgress store cid uid did b t).2 did uid with
    | none =>
      simp only []
      exact ⟨by rw [hs1]; exact h, [], by rw [hs1]; simp⟩
    | some cur =>
      simp only []
      by_cases hid : (cur.id == sid) = true
      · rw [if_pos hid]
        have hcmem : cur ∈ store.sessions := by
          have := (getActive_mem hcur).1
          rwa [hs1] at this
        have hcinv := h cur hcmem
        have hsess2 : (updateStudySession (updateCardProgress store cid uid did b t).2
              sid uid
              { cardsStudied := some (cur.cardsStudied + 1),
                correctAnswers := some (cur.correctAnswers + (if b then 1 else 0)) }).2.sessions =
            store.sessions.map (fun s =>
              if sessionMatchesOwn sid uid s then
                applySessionUpdates
                  { cardsStudied := some (cur.cardsStudied + 1),
                    correctAnswers := some (cur.correctAnswers + (if b then 1 else 0)) }
                  s
              else s) := by
          unfold updateStudySession
          simp only []
          rw [hs1]
        rw [hsess2]
        constructor
        · apply inv_map_if_update store.sessions sid uid _ h
          intro s _
          show cur.correctAnswers + (if b then 1 else 0) ≤ cur.cardsStudied + 1
          cases b <;> simp <;> omega
        · exact ⟨[], by rw [map_idTotal_update]; simp⟩
      · rw [if_neg hid]
        exact ⟨by rw [hs1]; exact h, [], by rw [hs1]; simp⟩

/-- The counterexample operation sequence for the cardsStudied bound: start a
session over a one-card deck, then record two reviews in it. -/
def c9Ops : List LedgerOp :=
  [.start 1 "u" "standard" 0, .review 1 1 1 "u" true 1, .review 1 1 1 "u" true 2]

/-- C9 counterexample: after starting a session on a one-card deck
(totalCards 1) and recording two reviews, the session has cardsStudied 2,
violating the claimed bound cardsStudied at most totalCards. -/
theorem studySession_counters_cex :
    (applyOps c1Store c9Ops).sessions.map (fun s => (s.totalCards, s.cardsStudied)) =
      [(1, 2)] := by
  decide

/-- C9 amended: under every sequence of engine operations, every session row
keeps correctAnswers at most cardsStudied (both nonnegative by type), and the
id and totalCards of every existing session row are never changed (new rows
are only appended); but cardsStudied is not bounded by totalCards. -/
theorem studySession_counter_invariants (store : Store) (ops : List LedgerOp)
    (h : ∀ s ∈ store.sessions, s.correctAnswers ≤ s.cardsStudied) :
    (∀ s ∈ (applyOps store ops).sessions, s.correctAnswers ≤ s.cardsStudied) ∧
    ∃ created, (applyOps store ops).sessions.map (fun s => (s.id, s.totalCards)) =
      store.sessions.map (fun s => (s.id, s.totalCards)) ++ created := by
  induction ops generalizing store with
  | nil => exact ⟨h, [], by simp [applyOps]⟩
  | cons op rest ih =>
    rcases applyOp_session_inv store op h with ⟨h1, c1, hc1⟩
    rcases ih (applyOp store op) h1 with ⟨h2, c2, hc2⟩
    refine ⟨h2, c1 ++ c2, ?_⟩
    show (applyOps (applyOp store op) rest).sessions.map _ = _
    rw [hc2, hc1, List.append_assoc]

theorem studySession_counter_invariants_witness :
    (∀ s ∈ c1Store.sessions, s.correctAnswers ≤ s.cardsStudied) ∧
    ((∀ s ∈ (applyOps c1Store c9Ops).sessions, s.correctAnswers ≤ s.cardsStudied) ∧
     ∃ created, (applyOps c1Store c9Ops).sessions.map (fun s => (s.id, s.totalCards)) =
       c1Store.sessions.map (fun s => (s.id, s.totalCards)) ++ created) :=
  ⟨by intro s hs; exact absurd hs (List.not_mem_nil s),
   studySession_counter_invariants c1Store c9Ops
     (by intro s hs; exact absurd hs (List.not_mem_nil s))⟩

/-! C6 -/

/-- The single card of the C6 counterexample state. -/
def c6Card : StudyCard := { id := 1, front := "q", back := "a" }

/-- A client state on the last card of a one-card session. -/
def c6State : ClientState :=
  { sessionId := some 10, currentCardIndex := 0, showAnswer := true,
    studyCards := [c6Card],
    correctAnswers := 0, cardsAnswered := 0, sessionCompleted := false,
    isPaused := false, skippedCards := [], bookmarkedCards := [], wrongCards := [],
    timeLeft := 30, totalTime := 0 }

/-- C6 counterexample: on the last card, skip neither advances nor completes
the session (goToNextCard is a no-op there), while a rating-driven advance on
the same state does complete the session. -/
theorem skipCard_last_card_cex :
    (skipCard c6State).1.sessionCompleted = false ∧
    (skipCard c6State).1.currentCardIndex = 0 ∧
    (skipCard c6State).2 = [] ∧
    (handleCardReview 1 c6State "medium").1.sessionCompleted = true := by
  refine ⟨by decide, by decide, by decide, by decide⟩

/-- C6 amended: skip records the current card id in the skipped set, issues no
durable call (in particular never the Mastery Tracker) and never changes
correctAnswers or cardsAnswered; when the current card is not the last it
advances exactly like a rating-driven advance (next index, answer hidden,
countdown reset to 30); when the current card is the last it does not advance
and does not complete the session. -/
theorem skipCard_behavior (s : ClientState) (c : StudyCard)
    (h : s.studyCards[s.currentCardIndex]? = some c) :
    (skipCard s).2 = [] ∧
    (skipCard s).1.correctAnswers = s.correctAnswers ∧
    (skipCard s).1.cardsAnswered = s.cardsAnswered ∧
    (skipCard s).1.skippedCards = setInsert s.skippedCards c.id ∧
    (s.currentCardIndex < s.studyCards.length - 1 →
      (skipCard s).1.currentCardIndex = s.currentCardIndex + 1 ∧
      (skipCard s).1.showAnswer = false ∧ (skipCard s).1.timeLeft = 30) ∧
    (¬ s.currentCardIndex < s.studyCards.length - 1 →
      (skipCard s).1.currentCardIndex = s.currentCardIndex ∧
      (skipCard s).1.sessionCompleted = s.sessionCompleted) := by
  unfold skipCard
  rw [h]
  simp only [goToNextCard]
  by_cases hl : s.currentCardIndex < s.studyCards.length - 1 <;> simp [hl]

/-- A client state in the middle of a two-card session, for the skip witness. -/
def c6bState : ClientState :=
  { sessionId := some 10, currentCardIndex := 0, showAnswer := true,
    studyCards := [c6Card, { id := 2, front := "q2", back := "a2" }],
    correctAnswers := 0, cardsAnswered := 0, sessionCompleted := false,
    isPaused := false, skippedCards := [], bookmarkedCards := [], wrongCards := [],
    timeLeft := 30, totalTime := 0 }

theorem skipCard_behavior_witness :
    c6bState.studyCards[c6bState.currentCardIndex]? = some c6Card ∧
    ((skipCard c6bState).2 = [] ∧
     (skipCard c6bState).1.correctAnswers = c6bState.correctAnswers ∧
     (skipCard c6bState).1.cardsAnswered = c6bState.cardsAnswered ∧
     (skipCard c6bState).1.skippedCards = setInsert c6bState.skippedCards c6Card.id ∧
     (c6bState.currentCardIndex < c6bState.studyCards.length - 1 →
       (skipCard c6bState).1.currentCardIndex = c6bState.currentCardIndex + 1 ∧
       (skipCard c6bState).1.showAnswer = false ∧
       (skipCard c6bState).1.timeLeft = 30) ∧
     (¬ c6bState.currentCardIndex < c6bState.studyCards.length - 1 →
       (skipCard c6bState).1.currentCardIndex = c6bState.currentCardIndex ∧
       (skipCard c6bState).1.sessionCompleted = c6bState.sessionCompleted)) :=
  ⟨rfl, skipCard_behavior c6bState c6Card rfl⟩

/-! C8 -/

/-- C8: in timed mode, with the session active and not completed, the answer
revealed and the machine not paused, the tick on which the per-card countdown
reaches zero produces exactly the state transition and durable calls of
rating the current card medium, and then resets the countdown to its full 30
seconds. -/
theorem timedTick_is_rate_medium (deckId : Nat) (s : ClientState) (sid : Nat)
    (h1 : s.sessionId = some sid) (h2 : s.sessionCompleted = false)
    (h3 : s.isPaused = false) (h4 : s.showAnswer = true) (h5 : s.timeLeft ≤ 1) :
    timedTick "timed" deckId s =
      ({ (handleCardReview deckId s "medium").1 with timeLeft := 30 },
       (handleCardReview deckId s "medium").2) := by
  unfold timedTick
  simp [h1, h2, h3, h4, h5]

/-- A timed-mode client state whose countdown is about to reach zero. -/
def c8State : ClientState :=
  { sessionId := some 10, currentCardIndex := 0, showAnswer := true,
    studyCards := [c6Card, { id := 2, front := "q2", back := "a2" }],
    correctAnswers := 0, cardsAnswered := 0, sessionCompleted := false,
    isPaused := false, skippedCards := [], bookmarkedCards := [], wrongCards := [],
    timeLeft := 1, totalTime := 0 }

theorem timedTick_is_rate_medium_witness :
    c8State.sessionId = some 10 ∧ c8State.sessionCompleted = false ∧
    c8State.isPaused = false ∧ c8State.showAnswer = true ∧ c8State.timeLeft ≤ 1 ∧
    timedTick "timed" 1 c8State =
      ({ (handleCardReview 1 c8State "medium").1 with timeLeft := 30 },
       (handleCardReview 1 c8State "medium").2) :=
  ⟨rfl, rfl, rfl, rfl, by decide,
   timedTick_is_rate_medium 1 c8State 10 rfl rfl rfl rfl (by decide)⟩

end Flashy
